import Mathlib

/-!
# Verification of the multi-tier cache core

A shallow embedding of the core of the `multi_tier_cache` Rust library
(`src/cache_manager.rs`, `src/invalidation.rs`) and proofs about it.
Durations are modelled in whole seconds as `Nat`; `serde_json::Value` is
modelled by the `Json` inductive below; fallible backend calls are
modelled by `Except String` results injected as parameters; floating
point rates are modelled over `ℚ`.
-/

namespace MultiTierCache

abbrev Key := String

/-- Shallow embedding of `serde_json::Value`. Numbers are modelled as
integers (the claims never depend on fractional numbers). -/
inductive Json where
  | null
  | bool (b : Bool)
  | num (n : Int)
  | str (s : String)
  | arr (xs : List Json)
  | obj (fields : List (String × Json))

/-- Field lookup in a JSON object, mirroring how serde resolves a named
field independently of its position. -/
def getField : List (String × Json) → String → Option Json
  | [], _ => none
  | (k, v) :: rest, name => if k = name then some v else getField rest name

/-- Model of `InvalidationMessage` from `src/invalidation.rs` lines 14-35: a tagged
union with exactly four variants; `Update.ttl_secs` is optional and is
skipped in the encoding when absent (`skip_serializing_if`). -/
inductive InvalidationMessage where
  | remove (key : String)
  | update (key : String) (value : Json) (ttlSecs : Option Nat)
  | removePattern (pattern : String)
  | removeBulk (keys : List String)

/-- serde's internally tagged encoding (`#[serde(tag = "type")]`) of an
`InvalidationMessage`, as produced by `InvalidationMessage::to_json`:
an object with the `type` discriminant first, then the variant's fields
in declaration order; `ttl_secs` is omitted when `None`. -/
def InvalidationMessage.toJson : InvalidationMessage → Json
  | .remove key => .obj [("type", .str "Remove"), ("key", .str key)]
  | .update key value ttlSecs =>
      .obj ([("type", .str "Update"), ("key", .str key), ("value", value)] ++
        (match ttlSecs with
          | none => []
          | some n => [("ttl_secs", .num (Int.ofNat n))]))
  | .removePattern pattern =>
      .obj [("type", .str "RemovePattern"), ("pattern", .str pattern)]
  | .removeBulk keys =>
      .obj [("type", .str "RemoveBulk"), ("keys", .arr (keys.map Json.str))]

/-- Decode a JSON array of strings (the `keys` field of `RemoveBulk`). -/
def stringsOf : List Json → Option (List String)
  | [] => some []
  | .str s :: rest => (stringsOf rest).map (s :: ·)
  | _ => none

/-- serde's internally tagged decoding, as performed by
`InvalidationMessage::from_json`: dispatch on the `type` field, then read
the variant's fields by name (order-insensitive); a missing or `null`
`ttl_secs` gives `None`; an unknown tag or an ill-typed field is an
error (`none`). -/
def InvalidationMessage.fromJson : Json → Option InvalidationMessage
  | .obj fields =>
    match getField fields "type" with
    | some (.str "Remove") =>
        match getField fields "key" with
        | some (.str k) => some (.remove k)
        | _ => none
    | some (.str "Update") =>
        match getField fields "key", getField fields "value" with
        | some (.str k), some v =>
            match getField fields "ttl_secs" with
            | none => some (.update k v none)
            | some .null => some (.update k v none)
            | some (.num (Int.ofNat n)) => some (.update k v (some n))
            | some (.num (Int.negSucc _)) => none
            | some _ => none
        | _, _ => none
    | some (.str "RemovePattern") =>
        match getField fields "pattern" with
        | some (.str p) => some (.removePattern p)
        | _ => none
    | some (.str "RemoveBulk") =>
        match getField fields "keys" with
        | some (.arr xs) => (stringsOf xs).map .removeBulk
        | _ => none
    | _ => none
  | _ => none

/-- Model of `CacheStrategy` from `src/cache_manager.rs` lines 37-50. -/
inductive CacheStrategy where
  | realTime
  | shortTerm
  | mediumTerm
  | longTerm
  | custom (secs : Nat)
  | defaultStrategy

/-- Model of `CacheStrategy::to_duration`, in seconds. -/
def CacheStrategy.toDuration : CacheStrategy → Nat
  | .realTime => 10
  | .shortTerm => 300
  | .mediumTerm => 3600
  | .longTerm => 10800
  | .custom d => d
  | .defaultStrategy => 300

/-- Lookup in a tier backend's key/value store: a key maps to a value and
the remaining TTL reported by the backend (`None` = no expiration),
mirroring `L2CacheBackend::get_with_ttl`. -/
def storeLookup : List (Key × Json × Option Nat) → Key → Option (Json × Option Nat)
  | [], _ => none
  | (k, v, ttl) :: rest, key => if k = key then some (v, ttl) else storeLookup rest key

/-- Model of `CacheTier` from `src/cache_manager.rs` lines 103-114.  The backend is
modelled by its current store contents plus a `writeOk` flag saying
whether `set_with_ttl` calls on it succeed. -/
structure CacheTier where
  level : Nat
  promotionEnabled : Bool
  ttlScale : ℚ
  store : List (Key × Json × Option Nat)
  writeOk : Bool

/-- Model of `CacheTier::get_with_ttl`. -/
def CacheTier.getWithTtl (t : CacheTier) (k : Key) : Option (Json × Option Nat) :=
  storeLookup t.store k

/-- One `set_with_ttl` call issued to a tier during an operation: the
target tier's level, and the key, value and base TTL passed to it. -/
structure WriteEff where
  level : Nat
  key : Key
  value : Json
  ttl : Nat

/-- The tier loop of `CacheManager::get_multi_tier` (lines 597-633).
`upper` holds the tiers already passed (`tiers[..tier_index]` in order),
`rest` the tiers still to try.  On the first hit, if the hit tier's
`promotion_enabled` is set and it is not the first tier, a write is
issued to every upper tier iterating `tiers[..tier_index].iter().rev()`
with `promotion_ttl = remaining ttl or Default`; `promotions` counts the
writes that succeed.  Returns (result, issued writes in order, promotions). -/
def getMultiTierGo (upper rest : List CacheTier) (k : Key) :
    Option Json × List WriteEff × Nat :=
  match rest with
  | [] => (none, [], 0)
  | t :: ts =>
    match t.getWithTtl k with
    | some (v, ttl) =>
      if t.promotionEnabled && !upper.isEmpty then
        let promotionTtl := ttl.getD CacheStrategy.defaultStrategy.toDuration
        (some v,
         upper.reverse.map (fun u => ⟨u.level, k, v, promotionTtl⟩),
         (upper.reverse.filter (fun u => u.writeOk)).length)
      else
        (some v, [], 0)
    | none => getMultiTierGo (upper ++ [t]) ts k

/-- Model of `CacheManager::get_multi_tier`. -/
def getMultiTier (tiers : List CacheTier) (k : Key) :
    Option Json × List WriteEff × Nat :=
  getMultiTierGo [] tiers k

/-- Aggregate manager counters (`CacheManager` fields, lines 283-287). -/
structure Stats where
  totalRequests : Nat
  l1Hits : Nat
  l2Hits : Nat
  misses : Nat
  promotions : Nat

/-- The statistics of a fresh manager: every counter starts at zero. -/
def Stats.init : Stats := ⟨0, 0, 0, 0, 0⟩

/-- Statistics additivity, property 10 of the spec:
`total_requests = l1_hits + l2_hits + misses`. -/
def Stats.additive (s : Stats) : Prop :=
  s.totalRequests = s.l1Hits + s.l2Hits + s.misses

instance (s : Stats) : Decidable s.additive := by
  unfold Stats.additive; infer_instance

/-- The slow path of multi-tier `CacheManager::get` after the first tier
missed twice (lines 687-700): descend via `get_multi_tier`; on a hit,
`l2_hits` is incremented only when at least two tiers are configured;
on a total miss, `misses` is incremented. -/
def mgrGetSlow (tiers : List CacheTier) (s1 : Stats) (k : Key) : Option Json × Stats :=
  match getMultiTier tiers k with
  | (res, _effs, promos) =>
    let s2 := { s1 with promotions := s1.promotions + promos }
    match res with
    | some v =>
        (some v, if 2 ≤ tiers.length then { s2 with l2Hits := s2.l2Hits + 1 } else s2)
    | none => (none, { s2 with misses := s2.misses + 1 })

/-- Multi-tier `CacheManager::get` (lines 650-701), sequential model:
bump `total_requests`; fast-path check of the first tier; on miss take
the per-key mutex and double-check the first tier; then descend. -/
def mgrGet (tiers : List CacheTier) (s : Stats) (k : Key) : Option Json × Stats :=
  let s1 := { s with totalRequests := s.totalRequests + 1 }
  match tiers with
  | [] => mgrGetSlow tiers s1 k
  | t1 :: _ =>
    match t1.getWithTtl k with
    | some (v, _) => (some v, { s1 with l1Hits := s1.l1Hits + 1 })
    | none =>
      match t1.getWithTtl k with
      | some (v, _) => (some v, { s1 with l1Hits := s1.l1Hits + 1 })
      | none => mgrGetSlow tiers s1 k

/-- The lower-tier loop of `CacheManager::get_or_compute_with` in
multi-tier mode (lines 920-939): iterate `tiers.iter().skip(1)`; on the
first hit, promote to `tiers[0]` only, with
`promotion_ttl = remaining ttl or strategy.to_duration()`, incrementing
`promotions` once if that single write succeeds.  `t0` is the first tier
(the promotion target), `rest` is `tiers[1..]`. -/
def gocDescend (t0 : CacheTier) (rest : List CacheTier) (k : Key) (strategyTtl : Nat) :
    Option Json × List WriteEff × Nat :=
  match rest with
  | [] => (none, [], 0)
  | t :: ts =>
    match t.getWithTtl k with
    | some (v, ttl) =>
        let promotionTtl := ttl.getD strategyTtl
        (some v, [⟨t0.level, k, v, promotionTtl⟩], if t0.writeOk then 1 else 0)
    | none => gocDescend t0 ts k strategyTtl

/-- Multi-tier `CacheManager::get_or_compute_with` /
`get_or_compute_typed` (lines 878-972 and 1076-1214), sequential model
with deserialization always succeeding: bump `total_requests`; L1 check
and post-lock double-check (each hit bumps `l1_hits`); then
`gocDescend`; on total miss run the compute function and store the
result in every tier via `set_with_strategy` (errors logged, not
propagated).  Neither the lower-tier hit nor the compute path touches
`l1_hits`, `l2_hits` or `misses`.  Returns (value, stats, writes). -/
def mgrGetOrCompute (tiers : List CacheTier) (s : Stats) (k : Key)
    (strategyTtl : Nat) (computed : Json) : Json × Stats × List WriteEff :=
  let s1 := { s with totalRequests := s.totalRequests + 1 }
  match tiers with
  | [] => (computed, s1, [])
  | t1 :: rest =>
    match t1.getWithTtl k with
    | some (v, _) => (v, { s1 with l1Hits := s1.l1Hits + 1 }, [])
    | none =>
      match t1.getWithTtl k with
      | some (v, _) => (v, { s1 with l1Hits := s1.l1Hits + 1 }, [])
      | none =>
        match gocDescend t1 rest k strategyTtl with
        | (some v, effs, promos) =>
            (v, { s1 with promotions := s1.promotions + promos }, effs)
        | (none, _, _) =>
            (computed, s1, (t1 :: rest).map (fun t => ⟨t.level, k, computed, strategyTtl⟩))

/-- Whether a tier write result is a success. -/
def isOkB : Except String Unit → Bool
  | .ok _ => true
  | .error _ => false

/-- The success/error accumulation loop of multi-tier
`CacheManager::set_with_strategy` (lines 798-822): count successes and
remember the last error. -/
def setMultiLoop : List (Except String Unit) → Nat → Option String → Nat × Option String
  | [], c, le => (c, le)
  | .ok _ :: rest, c, le => setMultiLoop rest (c + 1) le
  | .error e :: rest, c, _ => setMultiLoop rest c (some e)

/-- Multi-tier `CacheManager::set_with_strategy`, given the per-tier
write results in tier order: success if at least one tier succeeded,
otherwise the last error. -/
def setWithStrategyMulti (results : List (Except String Unit)) : Except String Unit :=
  match setMultiLoop results 0 none with
  | (successCount, lastError) =>
    if successCount > 0 then .ok ()
    else .error (lastError.getD "All tiers failed")

/-- Legacy two-tier `CacheManager::set_with_strategy` (lines 826-852),
given the L1 and L2 write results: success if either succeeded; when
both fail, the error built there quotes `e1` (the L1 error). -/
def setWithStrategyLegacy (l1Result l2Result : Except String Unit) : Except String Unit :=
  match l1Result, l2Result with
  | .ok _, .ok _ => .ok ()
  | .ok _, .error _ => .ok ()
  | .error _, .ok _ => .ok ()
  | .error e1, .error _ => .error e1

/-- The adjacent-level validation loop of `CacheManager::new_with_tiers`
(lines 499-507): `tiers[i].tier_level <= tiers[i-1].tier_level` for some
`i` makes construction bail. -/
def levelsAscending : List CacheTier → Bool
  | [] => true
  | [_] => true
  | a :: b :: rest => decide (a.level < b.level) && levelsAscending (b :: rest)

/-- Model of `CacheManager::new_with_tiers` (lines 482-542), reduced to its
validation outcome: first the sortedness loop, then the emptiness check
(`"At least one cache tier is required"`); on success the manager keeps
the given tier list. -/
def newWithTiers (tiers : List CacheTier) : Except String (List CacheTier) :=
  if !levelsAscending tiers then
    .error "Tiers must be sorted by tier_level ascending"
  else if tiers.isEmpty then
    .error "At least one cache tier is required"
  else
    .ok tiers

/-- The publish block shared by `invalidate`, `update_cache`,
`invalidate_pattern` and `set_with_broadcast`: when a publisher is
configured, `publish(&msg).await?` propagates a publish failure before
`messages_sent` is incremented.  The argument is the publish result
(`none` = no publisher configured); returns (operation result, new
`messages_sent`). -/
def publishBlock (publish : Option (Except String Unit)) (sent : Nat) :
    Except String Unit × Nat :=
  match publish with
  | none => (.ok (), sent)
  | some (.ok _) => (.ok (), sent + 1)
  | some (.error e) => (.error e, sent)

/-- Multi-tier `CacheManager::invalidate` (lines 1357-1382): per-tier
remove failures are logged and ignored, then the publish block runs. -/
def invalidateMgr (_tierRemoveResults : List (Except String Unit))
    (publish : Option (Except String Unit)) (sent : Nat) : Except String Unit × Nat :=
  publishBlock publish sent

/-- Multi-tier `CacheManager::update_cache` (lines 1402-1434): per-tier
set failures are logged and ignored, then the publish block runs. -/
def updateCacheMgr (_tierSetResults : List (Except String Unit))
    (publish : Option (Except String Unit)) (sent : Nat) : Except String Unit × Nat :=
  publishBlock publish sent

/-- Model of `CacheManager::set_with_broadcast` (lines 1516-1536):
`set_with_strategy` first (its failure propagates), then the publish
block. -/
def setWithBroadcastMgr (setResult : Except String Unit)
    (publish : Option (Except String Unit)) (sent : Nat) : Except String Unit × Nat :=
  match setResult with
  | .error e => (.error e, sent)
  | .ok _ => publishBlock publish sent

/-- Everything observable about one `invalidate_pattern` call. -/
structure PatternOutcome where
  result : Except String Unit
  sent : Nat
  removedKeys : List Key
  publishedBulk : Option (List Key)

/-- Model of `CacheManager::invalidate_pattern` (lines 1457-1498), multi-tier
mode, given the scan result: scan failure propagates; an empty key list
returns success immediately; otherwise every key is removed from every
tier (failures ignored), then a `RemoveBulk{keys}` publish runs through
the publish block. -/
def invalidatePatternMgr (scan : Except String (List Key))
    (publish : Option (Except String Unit)) (sent : Nat) : PatternOutcome :=
  match scan with
  | .error e => ⟨.error e, sent, [], none⟩
  | .ok keys =>
    if keys.isEmpty then ⟨.ok (), sent, [], none⟩
    else
      match publishBlock publish sent with
      | (res, sent') =>
        ⟨res, sent', keys, if publish.isSome then some keys else none⟩

/-- Association lookup in the in-flight request map. -/
def assocLookup : List (Key × Nat) → Key → Option Nat
  | [], _ => none
  | (k, mid) :: rest, key => if k = key then some mid else assocLookup rest key

/-- State of the coalescer: `map` is the `DashMap<String, Arc<Mutex<()>>>`
of in-flight requests (each mutex identified by a `Nat`), `holders` the
outstanding cloned `Arc` references held by callers, `nextId` a supply
of fresh mutex identities. -/
structure CoalescerState where
  map : List (Key × Nat)
  holders : List (Key × Nat)
  nextId : Nat

/-- A caller entering the miss path:
`in_flight_requests.entry(key).or_insert_with(new Mutex).clone()`
(lines 667-670) — reuse the key's mutex if present, else insert a fresh
one; either way the caller retains a reference. -/
def CoalescerState.acquire (s : CoalescerState) (k : Key) : CoalescerState × Nat :=
  match assocLookup s.map k with
  | some mid => ({ s with holders := (k, mid) :: s.holders }, mid)
  | none =>
      ({ map := (k, s.nextId) :: s.map,
         holders := (k, s.nextId) :: s.holders,
         nextId := s.nextId + 1 }, s.nextId)

/-- A holder finishing: `CleanupGuard::drop` (lines 28-32) runs
`self.map.remove(&self.key)` — the key's entry leaves the map
unconditionally — and the holder's reference is released. -/
def CoalescerState.releaseDrop (s : CoalescerState) (k : Key) (mid : Nat) : CoalescerState :=
  { s with
    map := s.map.filter (fun p => p.1 != k),
    holders := s.holders.erase (k, mid) }

/-- Model of `CacheManagerStats` (lines 1553-1563); the two `f64` rates are
modelled over `ℚ`. -/
structure CacheManagerStats where
  totalRequests : Nat
  l1Hits : Nat
  l2Hits : Nat
  totalHits : Nat
  misses : Nat
  hitRate : ℚ
  l1HitRate : ℚ
  promotions : Nat
  inFlightRequests : Nat

/-- Model of `CacheManager::get_stats` (lines 1221-1242): derived rates guard the
`total_requests = 0` case explicitly. -/
def getStats (totalReqs l1Hits l2Hits misses promotions inFlight : Nat) :
    CacheManagerStats :=
  { totalRequests := totalReqs
    l1Hits := l1Hits
    l2Hits := l2Hits
    totalHits := l1Hits + l2Hits
    misses := misses
    hitRate :=
      if totalReqs > 0 then (((l1Hits + l2Hits : Nat) : ℚ) / (totalReqs : ℚ)) * 100 else 0
    l1HitRate :=
      if totalReqs > 0 then ((l1Hits : ℚ) / (totalReqs : ℚ)) * 100 else 0
    promotions := promotions
    inFlightRequests := inFlight }

/-- A sample value for concrete runs. -/
def exValue : Json := .str "v"

/-- A first tier (level 1, empty store). -/
def exTier1 : CacheTier :=
  { level := 1, promotionEnabled := false, ttlScale := 1, store := [], writeOk := true }

/-- A middle tier (level 2, empty store, promotion enabled). -/
def exTier2 : CacheTier :=
  { level := 2, promotionEnabled := true, ttlScale := 1, store := [], writeOk := true }

/-- A bottom tier (level 3) holding the sample value with 60 s remaining. -/
def exTier3 : CacheTier :=
  { level := 3, promotionEnabled := true, ttlScale := 2,
    store := [("k", exValue, some 60)], writeOk := true }

end MultiTierCache

namespace MultiTierCache

theorem stringsOf_map_str (ks : List String) :
    stringsOf (ks.map Json.str) = some ks := by
  induction ks with
  | nil => rfl
  | cons k ks ih => simp [stringsOf, ih]

/-- C8: for every `InvalidationMessage` value of each of the four
variants (`Remove`, `Update` with and without `ttl_secs`,
`RemovePattern`, `RemoveBulk`), decoding its JSON encoding yields the
message back: `from_json(to_json(m)) = m`. -/
theorem invalidation_roundtrip (m : InvalidationMessage) :
    InvalidationMessage.fromJson m.toJson = some m := by
  cases m with
  | remove key => rfl
  | update key value ttlSecs => cases ttlSecs <;> rfl
  | removePattern pattern => rfl
  | removeBulk keys =>
      simp [InvalidationMessage.toJson, InvalidationMessage.fromJson, getField,
        stringsOf_map_str]

/-- C9: `get_stats` never divides by zero — when `total_requests` is 0
the returned `hit_rate` and `l1_hit_rate` are exactly 0, and otherwise
they equal `(l1_hits + l2_hits) / total_requests * 100` and
`l1_hits / total_requests * 100` (rates modelled over `ℚ`). -/
theorem getStats_no_div_by_zero (t l1 l2 m p f : Nat) :
    (t = 0 →
      (getStats t l1 l2 m p f).hitRate = 0 ∧ (getStats t l1 l2 m p f).l1HitRate = 0) ∧
    (t ≠ 0 →
      (getStats t l1 l2 m p f).hitRate = ((l1 : ℚ) + (l2 : ℚ)) / (t : ℚ) * 100 ∧
      (getStats t l1 l2 m p f).l1HitRate = (l1 : ℚ) / (t : ℚ) * 100) := by
  constructor
  · rintro rfl
    simp [getStats]
  · intro ht
    have hpos : 0 < t := Nat.pos_of_ne_zero ht
    constructor
    · simp [getStats, hpos]
    · simp [getStats, hpos]

/-- Witness: `getStats_no_div_by_zero` at concrete counter values, discharging
both hypotheses. -/
theorem getStats_no_div_by_zero_witness :
    (getStats 0 1 2 3 4 5).hitRate = 0 ∧
    (getStats 4 1 2 3 4 5).hitRate = ((1 : ℚ) + (2 : ℚ)) / (4 : ℚ) * 100 :=
  ⟨((getStats_no_div_by_zero 0 1 2 3 4 5).1 rfl).1,
   ((getStats_no_div_by_zero 4 1 2 3 4 5).2 (by decide)).1⟩

/-- C10: when `invalidate_pattern`'s key scan returns an empty key list,
the operation returns success having changed nothing — no remove is
issued to any tier, no `RemoveBulk` message is published, and
`messages_sent` is not incremented. -/
theorem invalidatePattern_empty_noop (publish : Option (Except String Unit)) (sent : Nat) :
    invalidatePatternMgr (.ok []) publish sent =
      ⟨.ok (), sent, [], none⟩ := rfl

theorem levelsAscending_iff (ts : List CacheTier) :
    levelsAscending ts = true ↔ (ts.map (·.level)).Chain' (· < ·) := by
  induction ts with
  | nil => simp [levelsAscending]
  | cons a ts ih =>
    cases ts with
    | nil => simp [levelsAscending]
    | cons b rest =>
      simp only [levelsAscending, List.map_cons, List.chain'_cons,
        Bool.and_eq_true, decide_eq_true_eq, ih]

/-- C7: `CacheManager::new_with_tiers` returns an error exactly when the
tier list is empty or the levels are not strictly ascending; on success
the constructed manager's tier sequence has strictly increasing levels. -/
theorem newWithTiers_ok_iff (ts : List CacheTier) :
    ((∃ out, newWithTiers ts = .ok out) ↔
      ts ≠ [] ∧ (ts.map (·.level)).Pairwise (· < ·)) ∧
    (∀ out, newWithTiers ts = .ok out → (out.map (·.level)).Pairwise (· < ·)) := by
  have hpair : levelsAscending ts = true ↔ (ts.map (·.level)).Pairwise (· < ·) := by
    rw [levelsAscending_iff, List.chain'_iff_pairwise]
  constructor
  · constructor
    · intro ⟨out, hout⟩
      unfold newWithTiers at hout
      by_cases ha : levelsAscending ts
      · by_cases he : ts.isEmpty
        · simp [ha, he] at hout
        · exact ⟨by simpa using he, hpair.mp ha⟩
      · simp [ha] at hout
    · intro ⟨hne, hp⟩
      have ha := hpair.mpr hp
      have he : ts.isEmpty = false := by simpa using hne
      exact ⟨ts, by simp [newWithTiers, ha, he]⟩
  · intro out hout
    unfold newWithTiers at hout
    by_cases ha : levelsAscending ts
    · by_cases he : ts.isEmpty
      · simp [ha, he] at hout
      · simp [ha, he] at hout
        exact hout ▸ hpair.mp ha
    · simp [ha] at hout

/-- Witness: `newWithTiers_ok_iff` at a concrete two-tier ladder, discharging the
success hypothesis of its second part. -/
theorem newWithTiers_ok_iff_witness :
    (([exTier1, exTier2].map (·.level)).Pairwise (· < ·)) :=
  (newWithTiers_ok_iff [exTier1, exTier2]).2 [exTier1, exTier2] rfl

theorem setMultiLoop_fst (results : List (Except String Unit)) (c : Nat) (le : Option String) :
    (setMultiLoop results c le).1 = c + results.countP isOkB := by
  induction results generalizing c le with
  | nil => simp [setMultiLoop]
  | cons r rest ih =>
    cases r with
    | ok u => simp [setMultiLoop, ih, List.countP_cons, isOkB]; omega
    | error e => simp [setMultiLoop, ih, List.countP_cons, isOkB]

theorem setMultiLoop_snd (results : List (Except String Unit)) (c : Nat) (le : Option String)
    (e : String) (hall : results.any isOkB = false)
    (hlast : results.getLast? = some (.error e)) :
    (setMultiLoop results c le).2 = some e := by
  induction results generalizing c le with
  | nil => simp at hlast
  | cons r rest ih =>
    cases r with
    | ok u => simp [isOkB] at hall
    | error e' =>
      simp only [List.any_cons, Bool.or_eq_false_iff] at hall
      cases rest with
      | nil =>
        simp at hlast
        simp [setMultiLoop, hlast]
      | cons r' rest' =>
        rw [List.getLast?_cons_cons] at hlast
        exact ih c (some e') hall.2 hlast

theorem countP_isOkB_eq_zero (results : List (Except String Unit))
    (h : results.any isOkB = false) : results.countP isOkB = 0 := by
  induction results with
  | nil => simp
  | cons r rest ih =>
    simp only [List.any_cons, Bool.or_eq_false_iff] at h
    cases r with
    | ok u => simp [isOkB] at h
    | error e => simp [List.countP_cons, isOkB, ih h.2]

/-- C6 amended: `set_with_strategy` returns success if and only if at
least one tier write succeeded, in both modes; when every write fails,
multi-tier mode returns the LAST tier's error while legacy two-tier
mode returns an error built from the L1 (first) error. -/
theorem setWithStrategy_success_iff (results : List (Except String Unit))
    (r1 r2 : Except String Unit) :
    (setWithStrategyMulti results = .ok () ↔ results.any isOkB = true) ∧
    (∀ e : String, results.any isOkB = false →
      results.getLast? = some (.error e) → setWithStrategyMulti results = .error e) ∧
    (setWithStrategyLegacy r1 r2 = .ok () ↔ (isOkB r1 || isOkB r2) = true) ∧
    (∀ e1 e2 : String, r1 = .error e1 → r2 = .error e2 →
      setWithStrategyLegacy r1 r2 = .error e1) := by
  refine ⟨?_, ?_, ?_, ?_⟩
  · rcases hsl : setMultiLoop results 0 none with ⟨sc, le⟩
    have h1 := setMultiLoop_fst results 0 none
    rw [hsl] at h1
    simp only [Nat.zero_add] at h1
    unfold setWithStrategyMulti
    rw [hsl]
    show (if sc > 0 then Except.ok () else Except.error (le.getD "All tiers failed"))
        = Except.ok () ↔ results.any isOkB = true
    constructor
    · intro h
      by_cases hpos : sc > 0
      · obtain ⟨a, ha, hp⟩ := List.countP_pos_iff.mp (h1 ▸ hpos)
        exact List.any_eq_true.mpr ⟨a, ha, hp⟩
      · rw [if_neg hpos] at h
        exact absurd h (fun hh => Except.noConfusion hh)
    · intro hany
      obtain ⟨a, ha, hp⟩ := List.any_eq_true.mp hany
      have hpos : sc > 0 := h1 ▸ List.countP_pos_iff.mpr ⟨a, ha, hp⟩
      rw [if_pos hpos]
  · intro e hall hlast
    rcases hsl : setMultiLoop results 0 none with ⟨sc, le⟩
    have h1 : sc = 0 + results.countP isOkB := by
      have := setMultiLoop_fst results 0 none
      rw [hsl] at this
      exact this
    have h2 : le = some e := by
      have := setMultiLoop_snd results 0 none e hall hlast
      rw [hsl] at this
      exact this
    have hz := countP_isOkB_eq_zero results hall
    unfold setWithStrategyMulti
    rw [hsl]
    show (if sc > 0 then Except.ok () else Except.error (le.getD "All tiers failed"))
        = Except.error e
    have hsc : ¬ sc > 0 := by omega
    rw [if_neg hsc, h2]
    rfl
  · cases r1 <;> cases r2 <;> simp [setWithStrategyLegacy, isOkB]
  · intro e1 e2 h1 h2
    subst h1; subst h2
    rfl

/-- Witness: `setWithStrategy_success_iff` at concrete write results, discharging
the all-failed hypotheses of both modes. -/
theorem setWithStrategy_success_iff_witness :
    setWithStrategyMulti [.error "e1", .error "e2"] = .error "e2" ∧
    setWithStrategyLegacy (.error "e1") (.error "e2") = .error "e1" :=
  ⟨(setWithStrategy_success_iff [.error "e1", .error "e2"] (.ok ()) (.ok ())).2.1
      "e2" rfl rfl,
   (setWithStrategy_success_iff [] (.error "e1") (.error "e2")).2.2.2 "e1" "e2" rfl rfl⟩

/-- C6 as stated is false in legacy mode: when both L1 and L2 writes
fail, `set_with_strategy` returns an error built from the L1 (first)
error, not the last tier's. -/
theorem setWithStrategyLegacy_counterexample :
    setWithStrategyLegacy (.error "l1 failed") (.error "l2 failed") = .error "l1 failed" ∧
    (Except.error "l1 failed" : Except String Unit) ≠ .error "l2 failed" := by
  refine ⟨rfl, ?_⟩
  intro h
  simp at h

/-- C3 as stated is false: a failing bus publish surfaces as an error
from `invalidate` (the publish result is propagated with `?`). -/
theorem invalidate_publish_failure_counterexample :
    (invalidateMgr [] (some (.error "publish failed")) 0).1 = .error "publish failed" ∧
    (Except.error "publish failed" : Except String Unit) ≠ .ok () :=
  ⟨rfl, fun h => Except.noConfusion h⟩

/-- C3 amended: a bus publish failure propagates as an error to the
caller of `invalidate`, `update_cache`, `invalidate_pattern` (when the
scan found keys) and `set_with_broadcast`, and `messages_sent` is not
incremented; per-tier remove/set failures in multi-tier mode never
surface, and with no publisher or a successful publish the operations
succeed. -/
theorem publish_failure_propagates (trs tsrs : List (Except String Unit))
    (scanKeys : List Key) (sent : Nat) (e : String) :
    invalidateMgr trs (some (.error e)) sent = (.error e, sent) ∧
    updateCacheMgr tsrs (some (.error e)) sent = (.error e, sent) ∧
    setWithBroadcastMgr (.ok ()) (some (.error e)) sent = (.error e, sent) ∧
    (scanKeys ≠ [] →
      (invalidatePatternMgr (.ok scanKeys) (some (.error e)) sent).result = .error e) ∧
    invalidateMgr trs none sent = (.ok (), sent) ∧
    invalidateMgr trs (some (.ok ())) sent = (.ok (), sent + 1) := by
  refine ⟨rfl, rfl, rfl, ?_, rfl, rfl⟩
  intro hne
  cases scanKeys with
  | nil => exact absurd rfl hne
  | cons a as => rfl

/-- Witness: `publish_failure_propagates` at concrete inputs, discharging the
nonempty-scan hypothesis. -/
theorem publish_failure_propagates_witness :
    (invalidatePatternMgr (.ok ["u:1"]) (some (.error "down")) 7).result = .error "down" :=
  (publish_failure_propagates [] [] ["u:1"] 7 "down").2.2.2.1 (by simp)

theorem assocLookup_filter_ne (l : List (Key × Nat)) (k : Key) :
    assocLookup (l.filter (fun p => p.1 != k)) k = none := by
  induction l with
  | nil => rfl
  | cons p rest ih =>
    by_cases h : p.1 = k
    · simp [List.filter_cons, h, ih]
    · simp [List.filter_cons, h, assocLookup, ih]

/-- C1 as stated is false: with two callers holding references to the
key's mutex, the first holder's release already removes the entry from
the map (`CleanupGuard::drop` removes unconditionally, with no
reference count), even though the second holder still holds its
reference. -/
theorem coalescer_early_removal_counterexample :
    assocLookup
      (((CoalescerState.acquire
          (CoalescerState.acquire ⟨[], [], 0⟩ "k").1 "k").1.releaseDrop "k" 0).map) "k"
      = none ∧
    ("k", 0) ∈ ((CoalescerState.acquire
        (CoalescerState.acquire ⟨[], [], 0⟩ "k").1 "k").1.releaseDrop "k" 0).holders := by
  constructor
  · rfl
  · decide

/-- C1 amended: the coalescer entry is removed whenever ANY holder
releases, not only the last one: `CleanupGuard::drop` removes the key
from the in-flight map unconditionally, on every exit path, regardless
of how many other callers still hold references to the entry's mutex. -/
theorem releaseDrop_always_removes (s : CoalescerState) (k : Key) (mid : Nat) :
    assocLookup (s.releaseDrop k mid).map k = none :=
  assocLookup_filter_ne s.map k

/-- C5 as stated is false: with the ladder `[L1, L2, L3]` and a hit at
L3, the promotion writes are issued to L2 first and L1 last — levels
`[2, 1]` — not in ascending level order with the smallest level first. -/
theorem promotion_order_counterexample :
    ((getMultiTier [exTier1, exTier2, exTier3] "k").2.1.map WriteEff.level) = [2, 1] ∧
    ¬ (((getMultiTier [exTier1, exTier2, exTier3] "k").2.1.map
        WriteEff.level).Chain' (· ≤ ·)) := by
  refine ⟨rfl, ?_⟩
  intro hch
  have h21 : ([2, 1] : List Nat).Chain' (· ≤ ·) := hch
  simp [List.chain'_cons] at h21

theorem getMultiTierGo_writes_desc (upper rest : List CacheTier) (k : Key)
    (h : (((upper ++ rest).map (·.level)).Chain' (· < ·))) :
    ((((getMultiTierGo upper rest k).2.1).map WriteEff.level).Chain' (· > ·)) := by
  induction rest generalizing upper with
  | nil => simp [getMultiTierGo]
  | cons t ts ih =>
    unfold getMultiTierGo
    cases hg : t.getWithTtl k with
    | none =>
      simp only [hg]
      refine ih (upper ++ [t]) ?_
      simpa [List.append_assoc] using h
    | some pair =>
      obtain ⟨v, ttl⟩ := pair
      simp only [hg]
      by_cases hp : (t.promotionEnabled && !upper.isEmpty) = true
      · simp only [hp, if_true]
        have hupper : ((upper.map (·.level)).Chain' (· < ·)) := by
          rw [List.map_append] at h
          exact (List.chain'_append.mp h).1
        have hrev : (((upper.map (·.level)).reverse).Chain' (· > ·)) :=
          List.chain'_reverse.mpr (hupper.imp fun _ _ hab => hab)
        simpa [List.map_map, Function.comp, List.map_reverse] using hrev
      · simp [hp]

/-- C5 amended: during promotion after a hit at tier index `i > 0` in a
multi-tier get, the writes to tiers `j` in `[0, i)` are issued
bottom-up — in strictly DESCENDING level order, the smallest level
written last (`tiers[..i].iter().rev()`). -/
theorem getMultiTier_promotion_descending (tiers : List CacheTier) (k : Key)
    (h : ((tiers.map (·.level)).Chain' (· < ·))) :
    ((((getMultiTier tiers k).2.1).map WriteEff.level).Chain' (· > ·)) :=
  getMultiTierGo_writes_desc [] tiers k (by simpa using h)

/-- Witness: `getMultiTier_promotion_descending` on the concrete three-tier
ladder, discharging the ascending-levels hypothesis. -/
theorem getMultiTier_promotion_descending_witness :
    ((((getMultiTier [exTier1, exTier2, exTier3] "k").2.1).map
        WriteEff.level).Chain' (· > ·)) :=
  getMultiTier_promotion_descending [exTier1, exTier2, exTier3] "k"
    (show List.Chain' (· < ·) [1, 2, 3] by simp [List.chain'_cons])

/-- C2 as stated is false: in `get_or_compute_with` with the ladder
`[L1, L2, L3]` and the value found at index 2 (promotion enabled), the
only promotion write issued targets level 1; no write to tier index 1
(level 2) happens, though the claim requires a write to every tier
`j ∈ [0, 2)`. -/
theorem goc_promotion_counterexample :
    ((mgrGetOrCompute [exTier1, exTier2, exTier3] Stats.init "k" 300
        Json.null).2.2.map WriteEff.level) = [1] ∧
    2 ∉ ((mgrGetOrCompute [exTier1, exTier2, exTier3] Stats.init "k" 300
        Json.null).2.2.map WriteEff.level) := by
  refine ⟨rfl, ?_⟩
  intro hmem
  have h2 : 2 ∈ ([1] : List Nat) := hmem
  exact absurd h2 (by decide)

theorem gocDescend_hit (t0 : CacheTier) (rest : List CacheTier) (k : Key) (st : Nat)
    (v : Json) (effs : List WriteEff) (p : Nat)
    (h : gocDescend t0 rest k st = (some v, effs, p)) :
    (∃ pttl, effs = [⟨t0.level, k, v, pttl⟩]) ∧ p = (if t0.writeOk then 1 else 0) := by
  induction rest with
  | nil => simp [gocDescend] at h
  | cons t ts ih =>
    unfold gocDescend at h
    cases hg : t.getWithTtl k with
    | none =>
      rw [hg] at h
      exact ih h
    | some pair =>
      obtain ⟨v', ttl⟩ := pair
      rw [hg] at h
      simp only [Prod.mk.injEq, Option.some.injEq] at h
      obtain ⟨hv, heffs, hp⟩ := h
      subst hv
      exact ⟨⟨ttl.getD st, heffs.symm⟩, hp.symm⟩

/-- C2 amended: in multi-tier mode, when `get_or_compute_with`
(equivalently `get_or_compute_typed`), after the top tier re-missed
under the coalescer mutex, finds the value at a lower tier, it writes
`(key, value, promotion_ttl)` into the FIRST tier only — where
`promotion_ttl` is the remaining TTL if reported, else the strategy
TTL — and increments `promotions` once if that single write succeeds,
before returning the value; `l1_hits`, `l2_hits` and `misses` are left
unchanged. -/
theorem goc_promotes_first_tier_only (t1 : CacheTier) (rest : List CacheTier)
    (s : Stats) (k : Key) (st : Nat) (comp : Json)
    (hmiss : t1.getWithTtl k = none)
    (v : Json) (effs : List WriteEff) (p : Nat)
    (hhit : gocDescend t1 rest k st = (some v, effs, p)) :
    (mgrGetOrCompute (t1 :: rest) s k st comp).1 = v ∧
    (mgrGetOrCompute (t1 :: rest) s k st comp).2.2 = effs ∧
    (∃ pttl, effs = [⟨t1.level, k, v, pttl⟩]) ∧
    (mgrGetOrCompute (t1 :: rest) s k st comp).2.1 =
      { s with totalRequests := s.totalRequests + 1,
               promotions := s.promotions + (if t1.writeOk then 1 else 0) } := by
  obtain ⟨hsingle, hp⟩ := gocDescend_hit t1 rest k st v effs p hhit
  subst hp
  simp only [mgrGetOrCompute, hmiss, hhit]
  simp [hsingle]

/-- Witness: `goc_promotes_first_tier_only` on the concrete three-tier ladder
with the value at L3, discharging the miss and hit hypotheses. -/
theorem goc_promotes_first_tier_only_witness :
    (mgrGetOrCompute [exTier1, exTier2, exTier3] Stats.init "k" 300 Json.null).1
      = exValue :=
  (goc_promotes_first_tier_only exTier1 [exTier2, exTier3] Stats.init "k" 300
    Json.null rfl exValue [⟨1, "k", exValue, 60⟩] 1 rfl).1

/-- C4 as stated is false: one `get_or_compute_with` call that misses
every tier and runs the compute path leaves
`total_requests = 1` but `l1_hits = l2_hits = misses = 0` — in
particular the compute path does not increment `misses`, so
`total_requests = l1_hits + l2_hits + misses` fails. -/
theorem stats_additivity_counterexample :
    (mgrGetOrCompute [exTier1, exTier2] Stats.init "k" 300 Json.null).2.1.totalRequests
      = 1 ∧
    (mgrGetOrCompute [exTier1, exTier2] Stats.init "k" 300 Json.null).2.1.l1Hits = 0 ∧
    (mgrGetOrCompute [exTier1, exTier2] Stats.init "k" 300 Json.null).2.1.l2Hits = 0 ∧
    (mgrGetOrCompute [exTier1, exTier2] Stats.init "k" 300 Json.null).2.1.misses = 0 ∧
    ¬ ((mgrGetOrCompute [exTier1, exTier2] Stats.init "k" 300 Json.null).2.1).additive := by
  refine ⟨rfl, rfl, rfl, rfl, ?_⟩
  intro hadd
  have hbad : (1 : Nat) = 0 := hadd
  exact Nat.one_ne_zero hbad

theorem getMultiTierGo_some_ne_nil (upper rest : List CacheTier) (k : Key) (v : Json)
    (h : (getMultiTierGo upper rest k).1 = some v) : rest ≠ [] := by
  cases rest with
  | nil => simp [getMultiTierGo] at h
  | cons t ts => exact List.cons_ne_nil t ts

theorem mgrGet_preserves_additive (tiers : List CacheTier) (s : Stats) (k : Key)
    (h : s.additive) : ((mgrGet tiers s k).2).additive := by
  unfold Stats.additive at h
  cases tiers with
  | nil =>
    simp only [mgrGet, mgrGetSlow, getMultiTier, getMultiTierGo]
    unfold Stats.additive
    simp
    omega
  | cons t1 ts =>
    cases hg : t1.getWithTtl k with
    | some pair =>
      obtain ⟨v, ttl⟩ := pair
      simp only [mgrGet, hg]
      unfold Stats.additive
      simp
      omega
    | none =>
      simp only [mgrGet, hg, mgrGetSlow]
      have hstep : getMultiTier (t1 :: ts) k = getMultiTierGo [t1] ts k := by
        simp [getMultiTier, getMultiTierGo, hg]
      rw [hstep]
      rcases hres : getMultiTierGo [t1] ts k with ⟨res, effs, promos⟩
      cases res with
      | none =>
        unfold Stats.additive
        simp
        omega
      | some v =>
        have hts : ts ≠ [] := getMultiTierGo_some_ne_nil [t1] ts k v (by rw [hres])
        have hlen : 2 ≤ (t1 :: ts).length := by
          cases ts with
          | nil => exact absurd rfl hts
          | cons a b => simp [List.length_cons]
        rw [if_pos hlen]
        unfold Stats.additive
        simp
        omega

/-- C4 amended: for any sequence of completed `get` operations (multi-
tier mode, sequential model), the aggregate counters satisfy
`total_requests = l1_hits + l2_hits + misses`.  The equation does NOT
survive `get_or_compute_with` / `get_or_compute_typed`: a lower-tier
hit or a run of the compute path increments `total_requests` without
incrementing any of `l1_hits`, `l2_hits` or `misses` — in particular
an operation that misses every tier and runs the compute path does not
increment `misses`. -/
theorem get_sequence_additive (tiers : List CacheTier) (keys : List Key) (s : Stats)
    (h : s.additive) :
    (keys.foldl (fun st k0 => (mgrGet tiers st k0).2) s).additive := by
  induction keys generalizing s with
  | nil => simpa using h
  | cons k ks ih =>
    rw [List.foldl_cons]
    exact ih _ (mgrGet_preserves_additive tiers s k h)

/-- Witness: `get_sequence_additive` on a concrete two-key trace over a concrete
ladder, discharging the starting-state hypothesis. -/
theorem get_sequence_additive_witness :
    ((["k", "x"].foldl (fun st k0 => (mgrGet [exTier1, exTier3] st k0).2)
        Stats.init).additive) :=
  get_sequence_additive [exTier1, exTier3] ["k", "x"] Stats.init rfl

end MultiTierCache
